import Mathlib

/-!
Verification development for the HCl/DCl ro-vibrational spectroscopy
analysis code (AlbroIRSpectroscopy.py).

The embedding below translates the two core routines of the source into
Lean:

* `detectpeaks` — peak detection, isotope filtering, branch splitting and
  quantum-number assignment (source lines 46-210).  Absorption and
  wavenumber samples are modelled as rational numbers; fallible steps
  (the input assertions, the reduction of an empty spacing array, and
  out-of-bounds sequence indexing) return errors through `Except`.
* `fit_p_branch` / `fit_r_branch` — the branch model fitter
  (source lines 242-392).  The iterative floating-point least-squares
  core of scipy curve_fit is kept abstract as an `Optimizer` parameter;
  the embedded part is the parameter-count validation performed by the
  library before fitting, the choice of model function, the unpacking of
  the fitted tuple, and the reordering of the standard errors.

The peak-candidate search reproduces scipy signal.find_peaks for the two
parameter combinations the source uses: local-maxima detection with
plateau handling, height filtering, minimal-distance selection, and
prominence computation and filtering.  Loops whose index advances toward
a bound are written with an explicit fuel argument (always called with
fuel larger than the bound) so that every definition is structurally
recursive and evaluates inside the kernel.
-/

/-- Failure modes of `detectpeaks`.  `invalidInput` stands for the
AssertionError raised by the three input assertions (lines 104-106);
`insufficientPeaks` stands for the ValueError raised by the numpy max
reduction over the empty spacing array, which happens exactly when fewer
than two peak candidates exist (lines 136 and 172); `emptyBranch` is the
explicit error demanded by the spec for an empty branch (no code raises
it); `indexError` stands for a Python IndexError from an out-of-bounds
sequence access; `valueError` stands for the ValueError raised by
find_peaks when the distance argument is below 1. -/
inductive DetectError where
  | invalidInput
  | insufficientPeaks
  | emptyBranch
  | indexError
  | valueError
deriving DecidableEq

/-- Indexing into a rational-valued sample array.  Call sites keep the
index in bounds (peak positions produced by the candidate search are
always valid sample indices), so the default value is never read. -/
def aGet (xs : List ℚ) (i : ℕ) : ℚ := xs.getD i 0

/-- Indexing into an array of peak positions; as with `aGet`, call sites
that could actually go out of bounds in Python are modelled with an
explicit bounds check instead of this total accessor. -/
def nGet (xs : List ℕ) (i : ℕ) : ℕ := xs.getD i 0

/-- Scan of a plateau inside the local-maxima search of
scipy _local_maxima_1d: starting from j, advance while the sample
equals the candidate value v and the right border is not reached. -/
def lmAhead (x : List ℚ) (v : ℚ) : ℕ → ℕ → ℕ
  | 0, j => j
  | fuel + 1, j => if j < x.length - 1 ∧ aGet x j = v then lmAhead x v fuel (j + 1) else j

/-- Main loop of scipy _local_maxima_1d: a sample (or plateau midpoint)
is a local maximum when it is strictly above the sample on its left and
the first differing sample on its right. -/
def lmGo (x : List ℚ) : ℕ → ℕ → List ℕ
  | 0, _ => []
  | fuel + 1, i =>
    if i < x.length - 1 then
      if aGet x (i - 1) < aGet x i then
        if aGet x (lmAhead x (aGet x i) x.length (i + 1)) < aGet x i then
          (i + (lmAhead x (aGet x i) x.length (i + 1) - 1)) / 2 ::
            lmGo x fuel (lmAhead x (aGet x i) x.length (i + 1) + 1)
        else lmGo x fuel (i + 1)
      else lmGo x fuel (i + 1)
    else []

/-- All local maxima of a trace, in increasing sample order
(scipy _local_maxima_1d). -/
def localMaxima (x : List ℚ) : List ℕ := lmGo x (x.length + 1) 1

/-- Leftward kill loop of scipy _select_by_peak_distance: starting at
position j-1 (the argument k+1 encodes current position k), clear the
keep flag while the gap to peak j is below the distance. -/
def killLeft (peaks : List ℕ) (d : ℤ) (j : ℕ) : ℕ → List Bool → List Bool
  | 0, keep => keep
  | k + 1, keep =>
    if ((nGet peaks j : ℤ) - (nGet peaks k : ℤ)) < d then
      killLeft peaks d j k (keep.set k false)
    else keep

/-- Rightward kill loop of scipy _select_by_peak_distance. -/
def killRight (peaks : List ℕ) (d : ℤ) (j : ℕ) : ℕ → ℕ → List Bool → List Bool
  | 0, _, keep => keep
  | fuel + 1, k, keep =>
    if k < peaks.length then
      if ((nGet peaks k : ℤ) - (nGet peaks j : ℤ)) < d then
        killRight peaks d j fuel (k + 1) (keep.set k false)
      else keep
    else keep

/-- Outer loop of scipy _select_by_peak_distance: visit peaks from the
highest priority downward; a still-kept peak clears its neighbours
within the distance on both sides. -/
def distLoop (peaks : List ℕ) (d : ℤ) : List ℕ → List Bool → List Bool
  | [], keep => keep
  | j :: rest, keep =>
    if keep.getD j false then
      distLoop peaks d rest
        (killRight peaks d j (peaks.length + 1) (j + 1) (killLeft peaks d j j keep))
    else distLoop peaks d rest keep

/-- Indices 0..n-1 sorted by ascending value (the numpy argsort used to
build the priority order of _select_by_peak_distance). -/
def argsortAsc (vals : List ℚ) : List ℕ :=
  List.insertionSort (fun i j => aGet vals i ≤ aGet vals j) (List.range vals.length)

/-- scipy _select_by_peak_distance: returns the keep mask for a peak
list under a minimal-distance constraint (the distance is rounded up,
as in the library). -/
def selectByPeakDistance (peaks : List ℕ) (heights : List ℚ) (distance : ℚ) : List Bool :=
  distLoop peaks ⌈distance⌉ (argsortAsc heights).reverse (List.replicate peaks.length true)

/-- Apply a keep mask to a peak list. -/
def applyKeep (peaks : List ℕ) (keep : List Bool) : List ℕ :=
  ((peaks.zip keep).filter (fun pr => pr.2)).map (fun pr => pr.1)

/-- Left walk of scipy _peak_prominences: from the peak position, move
left while the sample does not exceed the peak value, accumulating the
minimum sample seen. -/
def promLeft (x : List ℚ) (pv : ℚ) : ℕ → ℚ → ℚ
  | 0, cur => cur
  | i + 1, cur =>
    if aGet x (i + 1) ≤ pv then promLeft x pv i (min cur (aGet x i)) else cur

/-- Right walk of scipy _peak_prominences. -/
def promRight (x : List ℚ) (pv : ℚ) : ℕ → ℕ → ℚ → ℚ
  | 0, _, cur => cur
  | fuel + 1, i, cur =>
    if i < x.length - 1 ∧ aGet x i ≤ pv then
      promRight x pv fuel (i + 1) (min cur (aGet x (i + 1)))
    else cur

/-- Prominence of the peak at position p: the peak value minus the
larger of the two base minima (scipy _peak_prominences with no window
restriction, as called by the source). -/
def prominence (x : List ℚ) (p : ℕ) : ℚ :=
  aGet x p - max (promLeft x (aGet x p) p (aGet x p))
                 (promRight x (aGet x p) (x.length + 1) p (aGet x p))

/-- Mean of the samples (numpy mean). -/
def meanQ (x : List ℚ) : ℚ := x.sum / x.length

/-- Manual-mode candidate search, source line 122:
signal.find_peaks(absorption, height, distance).  The library validates
that the distance is at least 1, filters local maxima by height, then
applies the minimal-distance selection. -/
def findPeaksManual (x : List ℚ) (height : ℚ) (distance : ℚ) : Except DetectError (List ℕ) :=
  if distance < 1 then .error .valueError
  else
    .ok (applyKeep ((localMaxima x).filter (fun p => decide (height ≤ aGet x p)))
      (selectByPeakDistance ((localMaxima x).filter (fun p => decide (height ≤ aGet x p)))
        (((localMaxima x).filter (fun p => decide (height ≤ aGet x p))).map (aGet x))
        distance))

/-- Automatic-mode candidate search, source line 128:
signal.find_peaks(absorption, height = 1.005*mean, prominence = 0.015).
Returns the kept peaks together with their prominences (the props
dictionary entry read on line 129). -/
def findPeaksAuto (x : List ℚ) : List ℕ × List ℚ :=
  (((localMaxima x).filter (fun p => decide ((1.005 : ℚ) * meanQ x ≤ aGet x p))).filter
      (fun p => decide ((0.015 : ℚ) ≤ prominence x p)),
   (((localMaxima x).filter (fun p => decide ((1.005 : ℚ) * meanQ x ≤ aGet x p))).filter
      (fun p => decide ((0.015 : ℚ) ≤ prominence x p))).map (prominence x))

/-- Absolute gaps between consecutive peak positions, source lines 135
and 171: np.abs(peaks[:-1] - peaks[1:]). -/
def spacings (peaks : List ℕ) : List ℕ :=
  (peaks.zip peaks.tail).map (fun pr => ((pr.1 : ℤ) - (pr.2 : ℤ)).natAbs)

/-- First index of the largest gap, source lines 136 and 172:
np.where(spacing == np.max(spacing))[0][0].  The numpy max reduction of
an empty array raises a ValueError; the spacing array is empty exactly
when fewer than two peak candidates exist, which the spec taxonomy
calls the insufficient-peaks failure. -/
def maxGapIdx (peaks : List ℕ) : Except DetectError ℕ :=
  match (spacings peaks).max? with
  | none => .error .insufficientPeaks
  | some m => .ok ((spacings peaks).indexOf m)

/-- Split wavenumber, source lines 171-174: the wavenumber at the
sample index midway (integer-truncated) between the two peaks that
straddle the largest gap. -/
def splitWavenumber (peaks : List ℕ) (wavenumber : List ℚ) : Except DetectError ℚ :=
  match maxGapIdx peaks with
  | .error e => .error e
  | .ok s => .ok (aGet wavenumber ((nGet peaks s + nGet peaks (s + 1)) / 2))

/-- R-branch anchor disambiguation, source lines 139-144: the anchor is
the peak at the gap, unless the relative prominence difference to the
peak right of the gap exceeds 20 percent, in which case the peak one
position further left is used.  For s = 0 the Python expression
peaks[split-1] indexes position -1, which wraps to the last element. -/
def rStartOf (peaks : List ℕ) (proms : List ℚ) (s : ℕ) : ℕ :=
  if (0.20 : ℚ) < |aGet proms (s + 1) - aGet proms s| / aGet proms (s + 1) then
    match s with
    | 0 => nGet peaks (peaks.length - 1)
    | t + 1 => nGet peaks t
  else nGet peaks s

/-- Isotope-filter loop, source lines 146-166: for each interior
candidate index i (from 1 up to len(peaks)-2) decide whether the
candidate is removed.  When the relative absorption difference to the
next candidate exceeds 90 percent the comparison skips to peaks[i+2];
at i = len(peaks)-2 that subscript is len(peaks) and raises an
IndexError in Python, modelled by the bounds check below.  A candidate
is removed when its absorption is strictly below both comparison
neighbours and it is neither the P-branch nor the R-branch anchor.
The loop also computes a relative difference to the previous candidate,
which the source never uses. -/
def filtIndices (absorption : List ℚ) (peaks : List ℕ) (ps rs : ℕ) :
    ℕ → ℕ → Except DetectError (List ℕ)
  | 0, _ => .ok []
  | fuel + 1, i =>
    if i < peaks.length - 1 then
      match (if (0.9 : ℚ) <
               |aGet absorption (nGet peaks i) - aGet absorption (nGet peaks (i + 1))| /
                 aGet absorption (nGet peaks (i + 1)) then
               (if i + 2 < peaks.length then .ok (nGet peaks (i + 2))
                else .error .indexError)
             else .ok (nGet peaks (i + 1)) : Except DetectError ℕ) with
      | .error e => .error e
      | .ok next_peak =>
        match filtIndices absorption peaks ps rs fuel (i + 1) with
        | .error e => .error e
        | .ok rest =>
          if aGet absorption (nGet peaks i) < aGet absorption (nGet peaks (i - 1)) ∧
             aGet absorption (nGet peaks i) < aGet absorption next_peak ∧
             nGet peaks i ≠ ps ∧ nGet peaks i ≠ rs then
            .ok (i :: rest)
          else .ok rest
    else .ok []

/-- np.delete on a list of positions (source line 168): keep the
elements whose position is not listed.  All positions passed by the
source are in range, so the numpy out-of-range check never fires. -/
def npDeleteGo (idxs : List ℕ) : ℕ → List ℕ → List ℕ
  | _, [] => []
  | i, x :: rest =>
    if idxs.contains i then npDeleteGo idxs (i + 1) rest
    else x :: npDeleteGo idxs (i + 1) rest

/-- np.delete(peaks, filt_peaks), source line 168. -/
def npDelete (xs : List ℕ) (idxs : List ℕ) : List ℕ := npDeleteGo idxs 0 xs

/-- The isotope-filtering pass applied to a candidate list, source
lines 146-168: run the filter loop from i = 1 and delete the collected
positions. -/
def filterPass (absorption : List ℚ) (peaks : List ℕ) (ps rs : ℕ) :
    Except DetectError (List ℕ) :=
  match filtIndices absorption peaks ps rs (peaks.length + 1) 1 with
  | .error e => .error e
  | .ok filt => .ok (npDelete peaks filt)

/-- Automatic-mode peak pipeline, source lines 128-168: find all
candidates with their prominences, locate the largest gap, fix the two
branch anchors, then run the isotope-filtering pass. -/
def autoFilter (absorption : List ℚ) : Except DetectError (List ℕ) :=
  match maxGapIdx (findPeaksAuto absorption).1 with
  | .error e => .error e
  | .ok s =>
    filterPass absorption (findPeaksAuto absorption).1
      (nGet (findPeaksAuto absorption).1 (s + 1))
      (rStartOf (findPeaksAuto absorption).1 (findPeaksAuto absorption).2 s)

/-- The three input assertions of detectpeaks, source lines 104-106:
equal lengths, non-empty absorption, non-empty wavenumber. -/
def checkInput (absorption wavenumber : List ℚ) : Except DetectError Unit :=
  if absorption.length ≠ wavenumber.length then .error .invalidInput
  else if absorption.length = 0 then .error .invalidInput
  else if wavenumber.length = 0 then .error .invalidInput
  else .ok ()

/-- The peak candidates found under the current thresholds, source
lines 120-128: the manual search runs only when filter_peaks is False
and a height was supplied; every other combination (including
filter_peaks = False with no height, which only prints a notice) uses
the automatic search. -/
def candidatePeaks (absorption : List ℚ) (filter_peaks : Bool) (height : Option ℚ)
    (distance : ℚ) : Except DetectError (List ℕ) :=
  match filter_peaks, height with
  | false, some h => findPeaksManual absorption h distance
  | _, _ => .ok (findPeaksAuto absorption).1

/-- The peak list reaching the branch-splitting step: the manual
candidates as found, or the automatic candidates after the
isotope-filtering pass. -/
def detectedPeaks (absorption : List ℚ) (filter_peaks : Bool) (height : Option ℚ)
    (distance : ℚ) : Except DetectError (List ℕ) :=
  match filter_peaks, height with
  | false, some h => findPeaksManual absorption h distance
  | _, _ => autoFilter absorption

/-- Branch assignment, source lines 177-187: a peak whose wavenumber is
strictly above the split joins the R-branch, every other peak joins the
P-branch, in peak order. -/
def branchAssign (peaks : List ℕ) (w : List ℚ) (split : ℚ) : List ℚ × List ℚ :=
  ((peaks.filter (fun p => decide (split < aGet w p))).map (aGet w),
   (peaks.filter (fun p => !decide (split < aGet w p))).map (aGet w))

/-- The data returned by detectpeaks: R-branch wavenumbers, R-branch
quantum numbers, P-branch wavenumbers, P-branch quantum numbers. -/
structure DetectResult where
  rbranch : List ℚ
  jr : List ℕ
  pbranch : List ℚ
  jp : List ℕ
deriving DecidableEq

/-- Shallow embedding of detectpeaks (source lines 46-210): input
assertions, candidate search (with the automatic isotope filter),
branch split, branch assignment, quantum-number assignment
(jr = np.flip(np.arange(0, len(rbranch))),
jp = np.arange(1, len(pbranch)+1)), and the series-label annotations of
lines 203-206, which subscript the first and last element of each
branch and therefore raise an IndexError when a branch is empty. -/
def detectpeaks (absorption wavenumber : List ℚ) (filter_peaks : Bool := true)
    (height : Option ℚ := none) (distance : ℚ := 40) :
    Except DetectError DetectResult :=
  match checkInput absorption wavenumber with
  | .error e => .error e
  | .ok _ =>
    match detectedPeaks absorption filter_peaks height distance with
    | .error e => .error e
    | .ok peaks =>
      match splitWavenumber peaks wavenumber with
      | .error e => .error e
      | .ok split =>
        if (branchAssign peaks wavenumber split).1 = [] then .error .indexError
        else if (branchAssign peaks wavenumber split).2 = [] then .error .indexError
        else .ok ⟨(branchAssign peaks wavenumber split).1,
                  (List.range (branchAssign peaks wavenumber split).1.length).reverse,
                  (branchAssign peaks wavenumber split).2,
                  (List.range (branchAssign peaks wavenumber split).2.length).map (· + 1)⟩

/-- Failure mode of the branch fitters: scipy leastsq raises a
TypeError when the number of free parameters exceeds the number of data
points; the spec taxonomy calls this the underdetermined-fit failure. -/
inductive FitError where
  | underdeterminedFit
deriving DecidableEq

/-- The parameter-count validation scipy performs before fitting:
n free parameters against m data points, failing when m < n. -/
def curveFitCheck (n m : ℕ) : Except FitError Unit :=
  if m < n then .error .underdeterminedFit else .ok ()

/-- P-branch overtone model, source line 286:
nu = c - (2b - 3a) j - 2a j^2 + 4d j^3. -/
def fPovertone (j c b a d : ℚ) : ℚ :=
  c - (2 * b - 3 * a) * j - 2 * a * j ^ 2 + 4 * d * j ^ 3

/-- P-branch fundamental model, source line 290:
nu = c - (2b - 2a) j - a j^2 + 4d j^3. -/
def fPfundamental (j c b a d : ℚ) : ℚ :=
  c - (2 * b - 2 * a) * j - a * j ^ 2 + 4 * d * j ^ 3

/-- R-branch overtone model, source line 363:
nu = c + (2b - 5a - 4d) + (2b - 7a - 12d) j - (2a + 12d) j^2 - 4d j^3. -/
def fRovertone (j c b a d : ℚ) : ℚ :=
  c + (2 * b - 5 * a - 4 * d) + (2 * b - 7 * a - 12 * d) * j -
    (2 * a + 12 * d) * j ^ 2 - 4 * d * j ^ 3

/-- R-branch fundamental model, source line 367:
nu = c + (2b - 3a - 4d) + (2b - 4a - 12d) j - (a + 12d) j^2 - 4d j^3. -/
def fRfundamental (j c b a d : ℚ) : ℚ :=
  c + (2 * b - 3 * a - 4 * d) + (2 * b - 4 * a - 12 * d) * j -
    (a + 12 * d) * j ^ 2 - 4 * d * j ^ 3

/-- Modelled from the spec table of section 4.2, row P/overtone. -/
def specPovertone (J c b a d : ℚ) : ℚ :=
  c - (2 * b - 3 * a) * J - 2 * a * J ^ 2 + 4 * d * J ^ 3

/-- Modelled from the spec table of section 4.2, row P/fundamental. -/
def specPfundamental (J c b a d : ℚ) : ℚ :=
  c - (2 * b - 2 * a) * J - a * J ^ 2 + 4 * d * J ^ 3

/-- Modelled from the spec table of section 4.2, row R/overtone. -/
def specRovertone (J c b a d : ℚ) : ℚ :=
  c + (2 * b - 5 * a - 4 * d) + (2 * b - 7 * a - 12 * d) * J -
    (2 * a + 12 * d) * J ^ 2 - 4 * d * J ^ 3

/-- Modelled from the spec table of section 4.2, row R/fundamental. -/
def specRfundamental (J c b a d : ℚ) : ℚ :=
  c + (2 * b - 3 * a - 4 * d) + (2 * b - 4 * a - 12 * d) * J -
    (a + 12 * d) * J ^ 2 - 4 * d * J ^ 3

/-- Model choice inside fit_p_branch, source lines 284-291. -/
def pModelFun (fundamental : Bool) : ℚ → ℚ → ℚ → ℚ → ℚ → ℚ :=
  if fundamental then fPfundamental else fPovertone

/-- Model choice inside fit_r_branch, source lines 361-368. -/
def rModelFun (fundamental : Bool) : ℚ → ℚ → ℚ → ℚ → ℚ → ℚ :=
  if fundamental then fRfundamental else fRovertone

/-- Abstraction of the scipy curve_fit optimisation core: from a model
function and the (xdata, ydata) lists it produces the fitted parameters
in the native order (c, b, a, d) together with the diagonal of the
covariance matrix in the same order. -/
def Optimizer : Type :=
  (ℚ → ℚ → ℚ → ℚ → ℚ → ℚ) → List ℚ → List ℚ → (ℚ × ℚ × ℚ × ℚ) × (ℚ × ℚ × ℚ × ℚ)

/-- Shallow embedding of fit_p_branch, source lines 283-316,
parameterized by the optimisation core and by the square-root function
applied to the covariance diagonal (floating point in the source).
After the library validates that the 4 free parameters do not exceed
the number of data points, the fit result (c, b, a, d) is unpacked, the
errors c_err, b_err, a_err, d_err are taken in native order and
reordered to [a_err, b_err, c_err, d_err], and the function returns
a, b, c, d followed by the reordered error list. -/
def fitPbranch (opt : Optimizer) (sq : ℚ → ℚ) (pbranch jp : List ℚ)
    (fundamental : Bool := false) : Except FitError (ℚ × ℚ × ℚ × ℚ × List ℚ) :=
  match curveFitCheck 4 pbranch.length with
  | .error e => .error e
  | .ok _ =>
    match opt (pModelFun fundamental) jp pbranch with
    | ((c, b, a, d), (vc, vb, va, vd)) =>
      .ok (a, b, c, d, [sq va, sq vb, sq vc, sq vd])

/-- Shallow embedding of fit_r_branch, source lines 360-392; identical
plumbing to fit_p_branch with the R-branch model functions. -/
def fitRbranch (opt : Optimizer) (sq : ℚ → ℚ) (rbranch jr : List ℚ)
    (fundamental : Bool := false) : Except FitError (ℚ × ℚ × ℚ × ℚ × List ℚ) :=
  match curveFitCheck 4 rbranch.length with
  | .error e => .error e
  | .ok _ =>
    match opt (rModelFun fundamental) jr rbranch with
    | ((c, b, a, d), (vc, vb, va, vd)) =>
      .ok (a, b, c, d, [sq va, sq vb, sq vc, sq vd])

/-- A concrete optimisation core used to instantiate theorems with
hypotheses at specific inputs. -/
def constOpt : Optimizer := fun _ _ _ => ((1, 2, 3, 4), (5, 6, 7, 8))

/-- A second concrete optimisation core, returning zeros. -/
def trivOpt : Optimizer := fun _ _ _ => ((0, 0, 0, 0), (0, 0, 0, 0))

/-- The skip condition of the isotope-filter loop at interior index i:
the relative absorption difference between candidate i and candidate
i+1 exceeds 90 percent (source line 159). -/
def skipTriggerAt (a : List ℚ) (peaks : List ℕ) (i : ℕ) : Prop :=
  (0.9 : ℚ) <
    |aGet a (nGet peaks i) - aGet a (nGet peaks (i + 1))| / aGet a (nGet peaks (i + 1))

instance (a : List ℚ) (peaks : List ℕ) (i : ℕ) : Decidable (skipTriggerAt a peaks i) := by
  unfold skipTriggerAt; infer_instance

deriving instance DecidableEq for Except

/-- Claim C1: for each of the four branch-by-transition-order
combinations, the model function the fitter minimizes over — selected by
fit_p_branch or fit_r_branch from the fundamental flag — equals the
cubic polynomial in J stated by the spec, for every J and all parameter
values a, b, c, d. -/
theorem fitted_model_functions_match_spec (j a b c d : ℚ) :
    pModelFun false j c b a d = specPovertone j c b a d ∧
    pModelFun true j c b a d = specPfundamental j c b a d ∧
    rModelFun false j c b a d = specRovertone j c b a d ∧
    rModelFun true j c b a d = specRfundamental j c b a d :=
  ⟨rfl, rfl, rfl, rfl⟩

/-- Claim C4: the error list returned by the fitters is ordered
(a_err, b_err, c_err, d_err), positionally matching the returned value
tuple (a, b, c, d), even though the native optimizer order is
(c, b, a, d): given the native fit result and covariance diagonal, the
function returns the values reordered to (a, b, c, d) and the error in
each position is the square root of the variance of the parameter
returned in that position. -/
theorem fit_error_order_matches_values (opt : Optimizer) (sq : ℚ → ℚ)
    (ydata jdata : List ℚ) (fnd : Bool) (c b a d vc vb va vd : ℚ)
    (hm : 4 ≤ ydata.length) :
    (opt (pModelFun fnd) jdata ydata = ((c, b, a, d), (vc, vb, va, vd)) →
      fitPbranch opt sq ydata jdata fnd = .ok (a, b, c, d, [sq va, sq vb, sq vc, sq vd])) ∧
    (opt (rModelFun fnd) jdata ydata = ((c, b, a, d), (vc, vb, va, vd)) →
      fitRbranch opt sq ydata jdata fnd = .ok (a, b, c, d, [sq va, sq vb, sq vc, sq vd])) := by
  constructor
  · intro hopt
    unfold fitPbranch curveFitCheck
    rw [if_neg (by omega), hopt]
  · intro hopt
    unfold fitRbranch curveFitCheck
    rw [if_neg (by omega), hopt]

/-- Witness for C4 at a concrete optimizer output. -/
theorem fit_error_order_matches_values_witness :
    fitPbranch constOpt id [10, 20, 30, 40] [0, 1, 2, 3] false =
      .ok (3, 2, 1, 4, [7, 6, 5, 8]) ∧
    fitRbranch constOpt id [10, 20, 30, 40] [0, 1, 2, 3] false =
      .ok (3, 2, 1, 4, [7, 6, 5, 8]) :=
  ⟨(fit_error_order_matches_values constOpt id [10, 20, 30, 40] [0, 1, 2, 3] false
      1 2 3 4 5 6 7 8 (by decide)).1 rfl,
   (fit_error_order_matches_values constOpt id [10, 20, 30, 40] [0, 1, 2, 3] false
      1 2 3 4 5 6 7 8 (by decide)).2 rfl⟩

/-- Claim C9 (amended): every input with fewer than 4 (J, nu) pairs —
distinct or not — fails the parameter-count validation with the
underdetermined-fit error before any fit is attempted. -/
theorem fit_underdetermined_rejected (opt : Optimizer) (sq : ℚ → ℚ)
    (ydata jdata : List ℚ) (fnd : Bool) (hm : ydata.length < 4) :
    fitPbranch opt sq ydata jdata fnd = .error .underdeterminedFit ∧
    fitRbranch opt sq ydata jdata fnd = .error .underdeterminedFit := by
  constructor
  · unfold fitPbranch curveFitCheck
    rw [if_pos hm]
  · unfold fitRbranch curveFitCheck
    rw [if_pos hm]

/-- Witness for C9 at a three-point input. -/
theorem fit_underdetermined_rejected_witness :
    fitPbranch trivOpt id [1, 2, 3] [0, 1, 2] false = .error .underdeterminedFit ∧
    fitRbranch trivOpt id [1, 2, 3] [0, 1, 2] false = .error .underdeterminedFit :=
  fit_underdetermined_rejected trivOpt id [1, 2, 3] [0, 1, 2] false (by decide)

unseal Rat.add Rat.sub Rat.mul Rat.inv Nat.gcd Rat.ofScientific in
/-- Counterexample to C9 as stated: four data points of which only
three (J, nu) pairs are distinct pass the parameter-count validation,
so the fit is attempted instead of failing with the
underdetermined-fit error. -/
theorem nondistinct_pairs_not_rejected :
    (([1, 1, 2, 3] : List ℚ).zip ([10, 10, 20, 30] : List ℚ)).dedup.length = 3 ∧
    fitPbranch trivOpt id [10, 10, 20, 30] [1, 1, 2, 3] false ≠
      .error .underdeterminedFit := by
  constructor
  · decide
  · decide

/-- Claim C6: every pair of input sequences that is empty or of unequal
lengths makes detectpeaks fail with the invalid-input error, and every
non-empty, equal-length pair passes the precondition check. -/
theorem input_preconditions (a w : List ℚ) (fp : Bool) (h : Option ℚ) (d : ℚ) :
    (a.length ≠ w.length ∨ a = [] → detectpeaks a w fp h d = .error .invalidInput) ∧
    (a.length = w.length ∧ a ≠ [] → checkInput a w = .ok ()) := by
  constructor
  · intro hbad
    unfold detectpeaks checkInput
    rcases hbad with hne | hemp
    · rw [if_pos hne]
    · subst hemp
      by_cases hz : ([] : List ℚ).length ≠ w.length
      · rw [if_pos hz]
      · rw [if_neg hz, if_pos (show ([] : List ℚ).length = 0 from rfl)]
  · intro hgood
    unfold checkInput
    have hlen : a.length ≠ 0 := by
      intro h0
      exact hgood.2 (List.length_eq_zero.mp h0)
    have hw : w.length ≠ 0 := hgood.1 ▸ hlen
    rw [if_neg (by simp [hgood.1]), if_neg hlen, if_neg hw]

/-- Witness for C6: the empty pair fails, a length-1 pair passes the
check. -/
theorem input_preconditions_witness :
    detectpeaks [] [] true none 40 = .error .invalidInput ∧
    checkInput [1] [2] = .ok () :=
  ⟨(input_preconditions [] [] true none 40).1 (Or.inr rfl),
   (input_preconditions [1] [2] true none 40).2 ⟨rfl, by decide⟩⟩

/-- A peak list with fewer than two entries has no spacing entries. -/
theorem spacings_short (peaks : List ℕ) (h : peaks.length < 2) : spacings peaks = [] := by
  match peaks, h with
  | [], _ => rfl
  | [_], _ => rfl

/-- With fewer than two candidates the max reduction over the spacing
array fails. -/
theorem maxGapIdx_short (peaks : List ℕ) (h : peaks.length < 2) :
    maxGapIdx peaks = .error .insufficientPeaks := by
  unfold maxGapIdx
  rw [spacings_short peaks h]
  rfl

/-- Claim C7: whenever the candidate search (in either mode) finds
fewer than two peak candidates on an input that passes the
preconditions, detectpeaks fails with the insufficient-peaks error. -/
theorem too_few_candidates_fails (a w : List ℚ) (fp : Bool) (h : Option ℚ) (d : ℚ)
    (ps : List ℕ) (hin : checkInput a w = .ok ())
    (hcand : candidatePeaks a fp h d = .ok ps) (hlt : ps.length < 2) :
    detectpeaks a w fp h d = .error .insufficientPeaks := by
  have hmax : maxGapIdx ps = .error .insufficientPeaks := maxGapIdx_short ps hlt
  unfold detectpeaks
  rw [hin]
  cases fp with
  | false =>
    cases h with
    | none =>
      have hps : ps = (findPeaksAuto a).1 := by
        unfold candidatePeaks at hcand
        exact (Except.ok.inj hcand).symm
      unfold detectedPeaks autoFilter
      rw [← hps, hmax]
    | some hh =>
      have hman : findPeaksManual a hh d = .ok ps := hcand
      unfold detectedPeaks
      dsimp only
      rw [hman]
      unfold splitWavenumber
      dsimp only
      rw [hmax]
  | true =>
    have hps : ps = (findPeaksAuto a).1 := by
      unfold candidatePeaks at hcand
      cases h with
      | none => exact (Except.ok.inj hcand).symm
      | some hh => exact (Except.ok.inj hcand).symm
    unfold detectedPeaks autoFilter
    rw [← hps, hmax]

unseal Rat.add Rat.sub Rat.mul Rat.inv Nat.gcd Rat.ofScientific in
/-- Witness for C7: a flat trace yields no candidates in manual mode
and the call fails with the insufficient-peaks error. -/
theorem too_few_candidates_fails_witness :
    detectpeaks [0, 0, 0] [1, 2, 3] false (some 1) 1 = .error .insufficientPeaks :=
  too_few_candidates_fails [0, 0, 0] [1, 2, 3] false (some 1) 1 []
    (by decide) (by decide) (by decide)

/-- Every wavenumber placed in the first branch-assignment component
lies strictly above the split. -/
theorem branchAssign_mem_left (peaks : List ℕ) (w : List ℚ) (s x : ℚ)
    (hx : x ∈ (branchAssign peaks w s).1) : s < x := by
  unfold branchAssign at hx
  simp only [List.mem_map, List.mem_filter] at hx
  obtain ⟨p, ⟨_, hp⟩, rfl⟩ := hx
  exact of_decide_eq_true hp

/-- Every wavenumber placed in the second branch-assignment component
lies at or below the split. -/
theorem branchAssign_mem_right (peaks : List ℕ) (w : List ℚ) (s x : ℚ)
    (hx : x ∈ (branchAssign peaks w s).2) : x ≤ s := by
  unfold branchAssign at hx
  simp only [List.mem_map, List.mem_filter, Bool.not_eq_true'] at hx
  obtain ⟨p, ⟨_, hp⟩, rfl⟩ := hx
  exact le_of_not_lt (of_decide_eq_false hp)

/-- Claim C2: whenever detectpeaks returns normally, every wavenumber
in the returned R-branch is strictly greater than the computed split
wavenumber, and every wavenumber in the returned P-branch is less than
or equal to it. -/
theorem branch_split_partitions (a w : List ℚ) (fp : Bool) (h : Option ℚ) (d : ℚ)
    (res : DetectResult) (peaks : List ℕ) (s : ℚ)
    (hok : detectpeaks a w fp h d = .ok res)
    (hpeaks : detectedPeaks a fp h d = .ok peaks)
    (hsplit : splitWavenumber peaks w = .ok s) :
    (∀ x ∈ res.rbranch, s < x) ∧ (∀ x ∈ res.pbranch, x ≤ s) := by
  unfold detectpeaks at hok
  cases hc : checkInput a w with
  | error e => rw [hc] at hok; cases hok
  | ok u =>
    rw [hc] at hok
    dsimp only at hok
    rw [hpeaks] at hok
    dsimp only at hok
    rw [hsplit] at hok
    dsimp only at hok
    by_cases h1 : (branchAssign peaks w s).1 = []
    · rw [if_pos h1] at hok; cases hok
    · rw [if_neg h1] at hok
      by_cases h2 : (branchAssign peaks w s).2 = []
      · rw [if_pos h2] at hok; cases hok
      · rw [if_neg h2] at hok
        cases hok
        exact ⟨fun x hx => branchAssign_mem_left peaks w s x hx,
               fun x hx => branchAssign_mem_right peaks w s x hx⟩

unseal Rat.add Rat.sub Rat.mul Rat.inv Nat.gcd Rat.ofScientific in
/-- Witness for C2 on a five-sample trace with one peak per branch. -/
theorem branch_split_partitions_witness :
    (∀ x ∈ (DetectResult.mk [9] [0] [7] [1]).rbranch, (8 : ℚ) < x) ∧
    (∀ x ∈ (DetectResult.mk [9] [0] [7] [1]).pbranch, x ≤ (8 : ℚ)) :=
  branch_split_partitions [0, 1, 0, 1, 0] [10, 9, 8, 7, 6] false (some (1/2)) 1
    ⟨[9], [0], [7], [1]⟩ [1, 3] 8 (by decide) (by decide) (by decide)

/-- Claim C3: whenever detectpeaks returns normally, the R-branch
quantum numbers are exactly the reversed range [0, r) — contiguous,
strictly decreasing, ending at J = 0 — and the P-branch quantum numbers
are exactly 1, 2, ..., p in increasing order, with no duplicates and no
gaps in either branch. -/
theorem quantum_number_ranges (a w : List ℚ) (fp : Bool) (h : Option ℚ) (d : ℚ)
    (res : DetectResult) (hok : detectpeaks a w fp h d = .ok res) :
    res.jr = (List.range res.rbranch.length).reverse ∧
    res.jp = (List.range res.pbranch.length).map (· + 1) ∧
    res.jr.Nodup ∧ res.jp.Nodup ∧
    List.Pairwise (· > ·) res.jr ∧ List.Pairwise (· < ·) res.jp := by
  unfold detectpeaks at hok
  cases hc : checkInput a w with
  | error e => rw [hc] at hok; cases hok
  | ok u =>
    rw [hc] at hok
    dsimp only at hok
    cases hp : detectedPeaks a fp h d with
    | error e => rw [hp] at hok; cases hok
    | ok peaks =>
      rw [hp] at hok
      dsimp only at hok
      cases hs : splitWavenumber peaks w with
      | error e => rw [hs] at hok; cases hok
      | ok s =>
        rw [hs] at hok
        dsimp only at hok
        by_cases h1 : (branchAssign peaks w s).1 = []
        · rw [if_pos h1] at hok; cases hok
        · rw [if_neg h1] at hok
          by_cases h2 : (branchAssign peaks w s).2 = []
          · rw [if_pos h2] at hok; cases hok
          · rw [if_neg h2] at hok
            cases hok
            refine ⟨rfl, rfl, ?_, ?_, ?_, ?_⟩
            · exact List.nodup_reverse.mpr (List.nodup_range _)
            · exact (List.nodup_range _).map (fun x y hxy => by omega)
            · exact List.pairwise_reverse.mpr (List.pairwise_lt_range _)
            · exact List.pairwise_map.mpr
                ((List.pairwise_lt_range _).imp (fun hab => by omega))

unseal Rat.add Rat.sub Rat.mul Rat.inv Nat.gcd Rat.ofScientific in
/-- Witness for C3 on a seven-sample trace with one R-branch peak and
two P-branch peaks. -/
theorem quantum_number_ranges_witness :
    ([0] : List ℕ) = (List.range ([9] : List ℚ).length).reverse ∧
    ([1, 2] : List ℕ) = (List.range ([7, 5] : List ℚ).length).map (· + 1) ∧
    ([0] : List ℕ).Nodup ∧ ([1, 2] : List ℕ).Nodup ∧
    List.Pairwise (· > ·) ([0] : List ℕ) ∧ List.Pairwise (· < ·) ([1, 2] : List ℕ) :=
  quantum_number_ranges [0, 1, 0, 1, 0, 1, 0] [10, 9, 8, 7, 6, 5, 4] false
    (some (1/2)) 1 ⟨[9], [0], [7, 5], [1, 2]⟩ (by decide)

unseal Rat.add Rat.sub Rat.mul Rat.inv Nat.gcd Rat.ofScientific in
/-- Claim C8 evaluation: on a trace whose wavenumber array is constant,
branch splitting leaves the R-branch empty and detectpeaks fails with
the index error of the out-of-bounds access rbranch[0] performed by the
series-label annotation (source line 203) — not with an explicit
empty-branch error. -/
theorem empty_branch_propagates_index_error :
    detectpeaks [0, 1, 0, 1, 0] [5, 5, 5, 5, 5] false (some (1/2)) 1 =
      .error .indexError ∧
    detectpeaks [0, 1, 0, 1, 0] [5, 5, 5, 5, 5] false (some (1/2)) 1 ≠
      .error .emptyBranch := by
  constructor
  · decide
  · decide

/-- Every index collected by the isotope-filter loop lies between the
starting index and the last interior position. -/
theorem filtIndices_bounds (a : List ℚ) (peaks : List ℕ) (ps rs : ℕ) :
    ∀ fuel i l, filtIndices a peaks ps rs fuel i = .ok l →
      ∀ j ∈ l, i ≤ j ∧ j + 1 < peaks.length := by
  intro fuel
  induction fuel with
  | zero =>
    intro i l hl j hj
    cases hl
    cases hj
  | succ fuel ih =>
    intro i l hl j hj
    unfold filtIndices at hl
    by_cases hi : i < peaks.length - 1
    · rw [if_pos hi] at hl
      cases hrest : filtIndices a peaks ps rs fuel (i + 1) with
      | error e =>
        rw [hrest] at hl
        by_cases htr : (0.9 : ℚ) <
            |aGet a (nGet peaks i) - aGet a (nGet peaks (i + 1))| /
              aGet a (nGet peaks (i + 1))
        · rw [if_pos htr] at hl
          by_cases hib : i + 2 < peaks.length
          · rw [if_pos hib] at hl
            dsimp only at hl
            cases hl
          · rw [if_neg hib] at hl
            dsimp only at hl
            cases hl
        · rw [if_neg htr] at hl
          dsimp only at hl
          cases hl
      | ok rest =>
        rw [hrest] at hl
        have hrec := ih (i + 1) rest hrest
        have tail : ∀ (np : ℕ),
            (if aGet a (nGet peaks i) < aGet a (nGet peaks (i - 1)) ∧
                aGet a (nGet peaks i) < aGet a np ∧
                nGet peaks i ≠ ps ∧ nGet peaks i ≠ rs then
               (Except.ok (i :: rest) : Except DetectError (List ℕ))
             else .ok rest) = .ok l →
            i ≤ j ∧ j + 1 < peaks.length := by
          intro np hl'
          by_cases hcond : aGet a (nGet peaks i) < aGet a (nGet peaks (i - 1)) ∧
              aGet a (nGet peaks i) < aGet a np ∧
              nGet peaks i ≠ ps ∧ nGet peaks i ≠ rs
          · rw [if_pos hcond] at hl'
            cases hl'
            cases hj with
            | head => exact ⟨le_refl i, by omega⟩
            | tail _ hj' =>
              have := hrec _ hj'
              exact ⟨by omega, this.2⟩
          · rw [if_neg hcond] at hl'
            cases hl'
            have := hrec _ hj
            exact ⟨by omega, this.2⟩
        by_cases htr : (0.9 : ℚ) <
            |aGet a (nGet peaks i) - aGet a (nGet peaks (i + 1))| /
              aGet a (nGet peaks (i + 1))
        · rw [if_pos htr] at hl
          by_cases hib : i + 2 < peaks.length
          · rw [if_pos hib] at hl
            dsimp only at hl
            exact tail _ hl
          · rw [if_neg hib] at hl
            dsimp only at hl
            cases hl
        · rw [if_neg htr] at hl
          dsimp only at hl
          exact tail _ hl
    · rw [if_neg hi] at hl
      cases hl
      cases hj

/-- An element whose position is not being deleted survives np.delete. -/
theorem npDeleteGo_mem (idxs : List ℕ) :
    ∀ (xs : List ℕ) (off n : ℕ) (hn : n < xs.length),
      (off + n) ∉ idxs → xs.get ⟨n, hn⟩ ∈ npDeleteGo idxs off xs := by
  intro xs
  induction xs with
  | nil => intro off n hn; cases hn
  | cons x rest ih =>
    intro off n hn hnot
    cases n with
    | zero =>
      simp only [Nat.add_zero] at hnot
      unfold npDeleteGo
      rw [if_neg (by simp_all)]
      exact List.mem_cons_self _ _
    | succ m =>
      have hm : m < rest.length := by simpa using Nat.lt_of_succ_lt_succ hn
      have hnot' : (off + 1) + m ∉ idxs := by
        have he : off + (m + 1) = (off + 1) + m := by omega
        rw [he] at hnot
        exact hnot
      have hmem := ih (off + 1) m hm hnot'
      unfold npDeleteGo
      by_cases hc : idxs.contains off = true
      · rw [if_pos hc]
        exact hmem
      · rw [if_neg hc]
        exact List.mem_cons_of_mem _ hmem

/-- Claim C5: the isotope-filtering pass never removes the first or
the last candidate: whenever the pass completes, both extreme
candidates are present in the filtered peak list, regardless of the
absorption heights involved. -/
theorem filter_keeps_edge_candidates (a : List ℚ) (peaks : List ℕ) (ps rs : ℕ)
    (out : List ℕ) (hok : filterPass a peaks ps rs = .ok out) (hne : peaks ≠ []) :
    peaks.head hne ∈ out ∧ peaks.getLast hne ∈ out := by
  unfold filterPass at hok
  cases hf : filtIndices a peaks ps rs (peaks.length + 1) 1 with
  | error e => rw [hf] at hok; cases hok
  | ok filt =>
    rw [hf] at hok
    cases hok
    have hbounds := filtIndices_bounds a peaks ps rs (peaks.length + 1) 1 filt hf
    have hlen : 0 < peaks.length := List.length_pos.mpr hne
    constructor
    · have h0 : (0 : ℕ) ∉ filt := by
        intro h0
        have := (hbounds 0 h0).1
        omega
      have hmem := npDeleteGo_mem filt peaks 0 0 hlen (by simpa using h0)
      have hh : peaks.head hne = peaks.get ⟨0, hlen⟩ := by
        simp [List.head_eq_getElem_zero]
      rw [hh]
      exact hmem
    · have hl1 : peaks.length - 1 ∉ filt := by
        intro hmem
        have := (hbounds _ hmem).2
        omega
      have hlt : peaks.length - 1 < peaks.length := by omega
      have hmem := npDeleteGo_mem filt peaks 0 (peaks.length - 1) hlt (by simpa using hl1)
      have hgl : peaks.getLast hne = peaks.get ⟨peaks.length - 1, hlt⟩ := by
        simp [List.getLast_eq_getElem]
      rw [hgl]
      exact hmem

unseal Rat.add Rat.sub Rat.mul Rat.inv Nat.gcd Rat.ofScientific in
/-- Witness for C5: a three-candidate list whose middle candidate is
removed keeps both edge candidates. -/
theorem filter_keeps_edge_candidates_witness :
    (0 : ℕ) ∈ ([0, 2] : List ℕ) ∧ (2 : ℕ) ∈ ([0, 2] : List ℕ) :=
  filter_keeps_edge_candidates [3, 1, 3] [0, 1, 2] 99 98 [0, 2]
    (by decide) (by decide)

/-- If the skip condition does not trigger at the last interior index
(or there are fewer than three candidates), the isotope-filter loop
completes: every candidate-array read it performs is in bounds. -/
theorem filtIndices_ok (a : List ℚ) (peaks : List ℕ) (ps rs : ℕ)
    (hsafe : peaks.length < 3 ∨ ¬ skipTriggerAt a peaks (peaks.length - 2)) :
    ∀ fuel i, 1 ≤ i → peaks.length ≤ fuel + i →
      ∃ l, filtIndices a peaks ps rs fuel i = .ok l := by
  intro fuel
  induction fuel with
  | zero =>
    intro i h1 hfuel
    exact ⟨[], rfl⟩
  | succ fuel ih =>
    intro i h1 hfuel
    unfold filtIndices
    by_cases hi : i < peaks.length - 1
    · rw [if_pos hi]
      obtain ⟨rest, hrest⟩ := ih (i + 1) (by omega) (by omega)
      by_cases htr : (0.9 : ℚ) <
          |aGet a (nGet peaks i) - aGet a (nGet peaks (i + 1))| /
            aGet a (nGet peaks (i + 1))
      · by_cases hib : i + 2 < peaks.length
        · rw [if_pos htr, if_pos hib]
          dsimp only
          rw [hrest]
          dsimp only
          by_cases hcond : aGet a (nGet peaks i) < aGet a (nGet peaks (i - 1)) ∧
              aGet a (nGet peaks i) < aGet a (nGet peaks (i + 2)) ∧
              nGet peaks i ≠ ps ∧ nGet peaks i ≠ rs
          · rw [if_pos hcond]
            exact ⟨i :: rest, rfl⟩
          · rw [if_neg hcond]
            exact ⟨rest, rfl⟩
        · exfalso
          have hieq : i = peaks.length - 2 := by omega
          rcases hsafe with hlen | hnt
          · omega
          · apply hnt
            unfold skipTriggerAt
            rw [← hieq]
            exact htr
      · rw [if_neg htr]
        dsimp only
        rw [hrest]
        dsimp only
        by_cases hcond : aGet a (nGet peaks i) < aGet a (nGet peaks (i - 1)) ∧
            aGet a (nGet peaks i) < aGet a (nGet peaks (i + 1)) ∧
            nGet peaks i ≠ ps ∧ nGet peaks i ≠ rs
        · rw [if_pos hcond]
          exact ⟨i :: rest, rfl⟩
        · rw [if_neg hcond]
          exact ⟨rest, rfl⟩
    · rw [if_neg hi]
      exact ⟨[], rfl⟩

/-- Claim C10 (amended): the interior reads peaks[i-1] and peaks[i+1]
of the isotope-filter loop are always in bounds, and the skip read
peaks[i+2] is in bounds for every interior index except the last one:
unless the skip condition triggers at i = len(peaks)-2, the filtering
pass completes without an index error. -/
theorem filter_pass_in_bounds_unless_last_skip (a : List ℚ) (peaks : List ℕ)
    (ps rs : ℕ)
    (hsafe : peaks.length < 3 ∨ ¬ skipTriggerAt a peaks (peaks.length - 2)) :
    ∃ out, filterPass a peaks ps rs = .ok out := by
  obtain ⟨l, hl⟩ :=
    filtIndices_ok a peaks ps rs hsafe (peaks.length + 1) 1 (le_refl 1) (by omega)
  unfold filterPass
  rw [hl]
  exact ⟨npDelete peaks l, rfl⟩

unseal Rat.add Rat.sub Rat.mul Rat.inv Nat.gcd Rat.ofScientific in
/-- Witness for amended C10: with no trigger at the last interior
index, the pass completes. -/
theorem filter_pass_in_bounds_unless_last_skip_witness :
    ∃ out, filterPass [3, 1, 3] [0, 1, 2] 7 8 = .ok out :=
  filter_pass_in_bounds_unless_last_skip [3, 1, 3] [0, 1, 2] 7 8 (Or.inr (by decide))

unseal Rat.add Rat.sub Rat.mul Rat.inv Nat.gcd Rat.ofScientific in
/-- Counterexample to C10 as stated: for candidates [0, 2, 4] the skip
condition triggers at the last interior index i = 1 = len(peaks)-2, the
read peaks[3] is out of bounds, and the pass fails with an index error
instead of reading only in-bounds indices. -/
theorem skip_access_out_of_bounds_at_last :
    skipTriggerAt [1, 0, 1, 0, 1/20] [0, 2, 4] (([0, 2, 4] : List ℕ).length - 2) ∧
    filterPass [1, 0, 1, 0, 1/20] [0, 2, 4] 99 98 = .error .indexError := by
  constructor
  · decide
  · decide
